import Mathlib

/-!
Verification of the observable behavior of the Simple Git Clone Manager
(single-file application `app.py`): the catalog store (load/create/persist of
the nested category -> project -> component -> URL mapping), the background
clone task (outcome events, cancellation, destination handling), and the
derived selection lists.  Python dictionaries are embedded as association
lists in insertion order (keys unique by the update-in-place semantics of
assignment), the subprocess and filesystem interactions of the clone thread
as an explicit trace of actions, and the Qt message boxes as notices.
-/

namespace GitCloneApp

/-! ## Python dict embedding -/

/-- Association list in insertion order, modelling a Python `dict` with
string keys. -/
abbrev Dict (β : Type) := List (String × β)

/-- Embedding of `d[key]` lookup (`None` when absent). -/
def dictGet {β : Type} : Dict β → String → Option β
  | [], _ => none
  | (k, v) :: rest, key => if k = key then some v else dictGet rest key

/-- Embedding of the assignment `d[key] = val`: replaces the value at the
first matching key in place, otherwise appends the new pair. -/
def dictSet {β : Type} : Dict β → String → β → Dict β
  | [], key, val => [(key, val)]
  | (k, v) :: rest, key, val =>
      if k = key then (key, val) :: rest else (k, v) :: dictSet rest key val

/-- Embedding of `key in d`. -/
def dictContains {β : Type} (d : Dict β) (key : String) : Bool :=
  (dictGet d key).isSome

/-- Embedding of `d.keys()` (in insertion order). -/
def dictKeys {β : Type} (d : Dict β) : List String :=
  d.map Prod.fst

/-- Number of entries of `d` carrying the key `key`. -/
def countKey {β : Type} : Dict β → String → Nat
  | [], _ => 0
  | (k, _) :: rest, key => (if k = key then 1 else 0) + countKey rest key

/-- Keys of the association list are pairwise distinct (automatic for a list
that came from a genuine Python dict). -/
def dictNodupKeys {β : Type} : Dict β → Bool
  | [] => true
  | (k, _) :: rest => !dictContains rest k && dictNodupKeys rest

/-- The nested catalog: category name -> project name -> component name -> URL. -/
abbrev Catalog := Dict (Dict (Dict String))

/-- Keys are unique at every level of the catalog. -/
def catalogWF (repos : Catalog) : Bool :=
  dictNodupKeys repos &&
    repos.all fun cp =>
      dictNodupKeys cp.2 && cp.2.all fun pp => dictNodupKeys pp.2

/-- The component dict sitting at `repos[cat][proj]` (empty when the path is
absent). -/
def projComponents (repos : Catalog) (cat proj : String) : Dict String :=
  (dictGet ((dictGet repos cat).getD []) proj).getD []

/-! ## JSON documents and the catalog file

`json.load` may return any JSON document, not only the nested object shape;
`JValue` covers all of them. -/

inductive JValue : Type where
  | jnull : JValue
  | jbool : Bool → JValue
  | jnum : Int → JValue
  | jstr : String → JValue
  | jarr : List JValue → JValue
  | jobj : List (String × JValue) → JValue

/-- Rendering of a well-shaped catalog as the JSON document `json.dump`
writes and `json.load` reads back. -/
def catalogJson (c : Catalog) : JValue :=
  .jobj <| c.map fun cp =>
    (cp.1, .jobj <| cp.2.map fun pp =>
      (pp.1, .jobj <| pp.2.map fun comp => (comp.1, .jstr comp.2)))

/-- The built-in `SAMPLE_CONFIG` literal. -/
def sampleConfig : Catalog :=
  [("dev",
    [("ProjectA",
      [("Test", "https://github.com/abhisheksainiofficial7060/testrepo.git"),
       ("Component2", "https://github.com/user/projectA-component2.git")]),
     ("ProjectB",
      [("Component1", "https://github.com/user/projectB-component1.git")])]),
   ("localization",
    [("ProjectA",
      [("ui", "https://github.com/user/localization-projectA-ui.git"),
       ("strings", "https://github.com/user/localization-projectA-strings.git")])])]

/-- State of the `repos.json` file: absent, present but not valid JSON
(carrying the exception message raised by `json.load`), or present and
parsing to a document. -/
inductive FileState : Type where
  | missing : FileState
  | malformed (emsg : String) : FileState
  | parsed (v : JValue) : FileState

/-- A message box shown to the user. -/
inductive Notice : Type where
  | info (title msg : String) : Notice
  | warning (title msg : String) : Notice
  | critical (title msg : String) : Notice

/-- Outcome of `load_or_create_config`: the catalog returned, the file state
afterwards, and the message boxes shown. -/
structure LoadResult where
  catalog : JValue
  file : FileState
  notices : List Notice

/-- Embedding of `SimpleCloneManager.load_or_create_config`: when the file is
missing it writes `SAMPLE_CONFIG` and returns it (with an informational box);
when reading raises it shows a critical Config Error box and returns
`SAMPLE_CONFIG` leaving the file untouched; otherwise it returns whatever
document parsed. -/
def load_or_create_config : FileState → LoadResult
  | .missing =>
      { catalog := catalogJson sampleConfig
        file := .parsed (catalogJson sampleConfig)
        notices := [.info "Sample Config Created"
          "repos.json was not found and a sample has been created"] }
  | .malformed emsg =>
      { catalog := catalogJson sampleConfig
        file := .malformed emsg
        notices := [.critical "Config Error" ("Failed to read repos.json: " ++ emsg)] }
  | .parsed v =>
      { catalog := v
        file := .parsed v
        notices := [] }

/-! ## The clone task (`CloneThread.run`)

The external process is abstracted by its observable behavior: launching it
either raises `FileNotFoundError`, raises some other exception, or succeeds
and then yields a sequence of combined-output lines followed by an exit
status.  The cooperative `_stopped` flag is a time-indexed boolean: its value
at the check performed for the i-th line read.  `run` itself is embedded as
the trace of actions and signal emissions it performs, in order. -/

/-- Behavior of the attempted `subprocess.Popen` and the process it starts. -/
inductive LaunchResult : Type where
  | notFound : LaunchResult
  | otherError (msg : String) : LaunchResult
  | ok (lines : List String) (exitCode : Int) : LaunchResult

/-- Environment of one execution of `run`: the process behavior and the
value of the `_stopped` flag at the check for each line index. -/
structure RunEnv where
  launch : LaunchResult
  stopFlag : Nat → Bool

/-- One observable step of `run`: filesystem actions, process control, and
the `log` / `finished_signal` emissions. -/
inductive TraceItem : Type where
  | mkdirParents (dir : List String) : TraceItem
  | spawn (url : String) (dest : List String) : TraceItem
  | kill : TraceItem
  | log (line : String) : TraceItem
  | finished (success : Bool) (reason : String) : TraceItem
deriving DecidableEq

/-- Embedding of Python `str.rstrip()`. -/
def pyRstrip (s : String) : String :=
  String.mk ((s.toList.reverse.dropWhile Char.isWhitespace).reverse)

/-- Paths are lists of segments; `Path(dest).parent` drops the last one. -/
def destText (dest : List String) : String :=
  String.intercalate "/" dest

/-- Embedding of the `for line in proc.stdout:` loop and what follows it:
at each line read the `_stopped` flag is checked first (kill, aborted log,
`finished(False, "aborted")` when set), otherwise the stripped line is
logged; when the stream ends, `proc.wait()` yields the exit status and the
success or `exit N` outcome is emitted. -/
def cloneLoop (env : RunEnv) : List String → Nat → Int → List TraceItem
  | [], _, code =>
      if code = 0 then
        [.log "Clone completed successfully.\n", .finished true "success"]
      else
        [.log ("git exited with code " ++ toString code ++ "\n"),
         .finished false ("exit " ++ toString code)]
  | line :: rest, i, code =>
      if env.stopFlag i then
        [.kill, .log "Clone aborted by user.\n", .finished false "aborted"]
      else
        .log (pyRstrip line) :: cloneLoop env rest (i + 1) code

/-- Embedding of `CloneThread.run`: create the destination parent
directories, log the start line, then attempt the launch; a
`FileNotFoundError` yields the `git-not-found` outcome, any other exception
its message, and a started process is driven by `cloneLoop`. -/
def runCloneTrace (url : String) (dest : List String) (env : RunEnv) : List TraceItem :=
  .mkdirParents dest.dropLast ::
  .log ("Starting clone: " ++ url ++ " -> " ++ destText dest ++ "\n") ::
  match env.launch with
  | .notFound =>
      [.log "Error: \x27git\x27 not found. Please install Git and ensure it is on PATH.\n",
       .finished false "git-not-found"]
  | .otherError msg =>
      [.log ("Unexpected error: " ++ msg ++ "\n"), .finished false msg]
  | .ok lines code =>
      .spawn url dest :: cloneLoop env lines 0 code

/-- The `finished_signal` emissions of a trace, in order. -/
def finishedEvents (t : List TraceItem) : List (Bool × String) :=
  t.filterMap fun item =>
    match item with
    | .finished b r => some (b, r)
    | _ => none

/-- Modelled from the specification wording of the terminal outcomes:
`(true, "success")` on exit status 0, `(false, "exit N")` on nonzero exit
status N, `(false, "aborted")` on user cancellation (the flag set at some
line-read check), `(false, "git-not-found")` when the binary cannot be
located, and `(false, msg)` for any other launch failure. -/
def specFinishedOutcome (env : RunEnv) : Bool × String :=
  match env.launch with
  | .notFound => (false, "git-not-found")
  | .otherError msg => (false, msg)
  | .ok lines code =>
      if (List.range lines.length).any env.stopFlag then (false, "aborted")
      else if code = 0 then (true, "success")
      else (false, "exit " ++ toString code)

/-- Destination computed by `clone_button_clicked`:
`Path(dest) / proj / comp`. -/
def cloneDestPath (root : List String) (proj comp : String) : List String :=
  root ++ [proj, comp]

/-! ## Catalog mutation (`save_new_project`) -/

/-- Embedding of the mutation performed by `save_new_project` (the spec's
`upsertComponent`): create the category and project levels when absent, then
assign `repos[cat][proj][comp] = url`. -/
def upsertComponent (repos : Catalog) (cat proj comp url : String) : Catalog :=
  let repos1 := if dictContains repos cat then repos else dictSet repos cat []
  let catMap := (dictGet repos1 cat).getD []
  let catMap1 := if dictContains catMap proj then catMap else dictSet catMap proj []
  let projMap := (dictGet catMap1 proj).getD []
  dictSet repos1 cat (dictSet catMap1 proj (dictSet projMap comp url))

/-- Outcome of `save_new_project`: the in-memory catalog afterwards, what (if
anything) was written to `repos.json`, the message boxes shown, and whether
the dialog was accepted. -/
structure SaveResult where
  repos : Catalog
  written : Option Catalog
  notices : List Notice
  accepted : Bool

/-- Embedding of `SimpleCloneManager.save_new_project`.  `writeResult` is the
behavior of the write-back to `repos.json`: `none` on success, `some emsg`
when opening or dumping raises with message `emsg`.  Empty fields are
rejected before any mutation; on write failure the error box is shown and
the function returns with the in-memory mutation kept. -/
def save_new_project (repos : Catalog)
    (repo_type project_name component_name repo_url : String)
    (writeResult : Option String) : SaveResult :=
  if project_name = "" ∨ component_name = "" ∨ repo_url = "" then
    { repos := repos
      written := none
      notices := [.warning "Validation" "Please fill all fields."]
      accepted := false }
  else
    let repos1 := upsertComponent repos repo_type project_name component_name repo_url
    match writeResult with
    | some emsg =>
        { repos := repos1
          written := none
          notices := [.critical "Error" ("Failed to write repos.json: " ++ emsg)]
          accepted := false }
    | none =>
        { repos := repos1
          written := some repos1
          notices := [.info "Saved" "Project added successfully."]
          accepted := true }

/-! ## Clone triggers and the single-clone-in-flight discipline

Two user-visible triggers are connected to `clone_button_clicked`: the Clone
push button (`clone_btn.clicked`, line 212) and the toolbar clone action
(`clone_action.triggered`, line 146).  `clone_button_clicked` disables only
`clone_btn` when it starts a thread, and `clone_finished` re-enables it; the
validation guards before the thread starts are abstracted into a single
`selectionValid` flag. -/

structure UIState where
  selectionValid : Bool
  cloneBtnEnabled : Bool
  cloneActionEnabled : Bool
  cloneRunning : Bool
deriving DecidableEq

inductive CloneTrigger : Type where
  | cloneButton : CloneTrigger
  | toolbarCloneAction : CloneTrigger

/-- Whether the given trigger is currently enabled. -/
def triggerEnabled (ui : UIState) : CloneTrigger → Bool
  | .cloneButton => ui.cloneBtnEnabled
  | .toolbarCloneAction => ui.cloneActionEnabled

/-- State right after `SimpleCloneManager.__init__`: both triggers enabled,
no clone running. -/
def startupUI (selValid : Bool) : UIState :=
  { selectionValid := selValid
    cloneBtnEnabled := true
    cloneActionEnabled := true
    cloneRunning := false }

/-- Embedding of `clone_button_clicked` (lines 367-412): when the validation
guards pass it disables the Clone button, constructs a `CloneThread` and
starts it; the returned boolean records whether a thread was started.  The
handler never checks whether a clone is already running. -/
def clone_button_clicked (ui : UIState) : UIState × Bool :=
  if ui.selectionValid then
    ({ ui with cloneBtnEnabled := false, cloneRunning := true }, true)
  else (ui, false)

/-- Embedding of `clone_finished` (lines 414-417): re-enables the Clone
button once the task reports its terminal state. -/
def clone_finished (ui : UIState) : UIState :=
  { ui with cloneBtnEnabled := true, cloneRunning := false }

/-- A user activating a trigger: the connected handler runs exactly when the
trigger is enabled. -/
def activateTrigger (ui : UIState) (t : CloneTrigger) : UIState × Bool :=
  if triggerEnabled ui t then clone_button_clicked ui else (ui, false)

/-! ## Derived selection lists -/

/-- Embedding of Python `sorted` on a list of strings. -/
def pySortedStr (l : List String) : List String :=
  List.insertionSort (fun a b => a ≤ b) l

/-- Embedding of `on_category_change`: the project combo is cleared and,
when the selected text is nonempty and a catalog key, repopulated with the
sorted project names of that category. -/
def on_category_change (repos : Catalog) (text : String) : List String :=
  if text ≠ "" ∧ dictContains repos text = true then
    pySortedStr (dictKeys ((dictGet repos text).getD []))
  else []

/-- Embedding of `on_project_change`: the component combo is cleared and,
when both selections are nonempty and present in the catalog, repopulated
with the sorted component names of that project. -/
def on_project_change (repos : Catalog) (cat proj : String) : List String :=
  if cat ≠ "" ∧ proj ≠ "" ∧ dictContains repos cat = true ∧
      dictContains ((dictGet repos cat).getD []) proj = true then
    pySortedStr (dictKeys ((dictGet ((dictGet repos cat).getD []) proj).getD []))
  else []

/-! ## Helper lemmas about the dict embedding -/

theorem dictGet_dictSet_self {β : Type} (d : Dict β) (k : String) (v : β) :
    dictGet (dictSet d k v) k = some v := by
  induction d with
  | nil => simp [dictSet, dictGet]
  | cons p rest ih =>
      obtain ⟨k', v'⟩ := p
      by_cases h : k' = k
      · simp [dictSet, dictGet, h]
      · simp [dictSet, dictGet, h, ih]

theorem dictGet_eq_none_of_not_contains {β : Type} {d : Dict β} {k : String}
    (h : dictContains d k = false) : dictGet d k = none := by
  cases hg : dictGet d k with
  | none => rfl
  | some v => rw [dictContains, hg] at h; cases h

theorem dictGet_mem {β : Type} {d : Dict β} {k : String} {v : β}
    (h : dictGet d k = some v) : (k, v) ∈ d := by
  induction d with
  | nil => cases h
  | cons p rest ih =>
      obtain ⟨k', v'⟩ := p
      by_cases hk : k' = k
      · rw [dictGet, if_pos hk] at h
        cases h
        cases hk
        exact List.mem_cons_self _ _
      · rw [dictGet, if_neg hk] at h
        exact List.mem_cons_of_mem _ (ih h)

theorem countKey_eq_zero_of_not_contains {β : Type} (d : Dict β) (k : String)
    (h : dictContains d k = false) : countKey d k = 0 := by
  induction d with
  | nil => rfl
  | cons p rest ih =>
      obtain ⟨k', v'⟩ := p
      by_cases hk : k' = k
      · exfalso
        rw [dictContains, dictGet, if_pos hk] at h
        cases h
      · rw [countKey, if_neg hk]
        rw [dictContains, dictGet, if_neg hk] at h
        simpa using ih h

theorem countKey_le_one_of_nodup {β : Type} (d : Dict β) (k : String)
    (h : dictNodupKeys d = true) : countKey d k ≤ 1 := by
  induction d with
  | nil => simp [countKey]
  | cons p rest ih =>
      obtain ⟨k', v'⟩ := p
      rw [dictNodupKeys, Bool.and_eq_true, Bool.not_eq_true'] at h
      obtain ⟨hnc, hnd⟩ := h
      by_cases hk : k' = k
      · subst hk
        rw [countKey, if_pos rfl, countKey_eq_zero_of_not_contains rest k' hnc]
      · rw [countKey, if_neg hk]
        simpa using ih hnd

theorem countKey_dictSet_self {β : Type} (d : Dict β) (k : String) (v : β)
    (h : countKey d k ≤ 1) : countKey (dictSet d k v) k = 1 := by
  induction d with
  | nil => simp [dictSet, countKey]
  | cons p rest ih =>
      obtain ⟨k', v'⟩ := p
      by_cases hk : k' = k
      · subst hk
        rw [countKey, if_pos rfl] at h
        rw [dictSet, if_pos rfl, countKey, if_pos rfl]
        omega
      · rw [countKey, if_neg hk] at h
        rw [dictSet, if_neg hk, countKey, if_neg hk]
        simpa using ih (by simpa using h)

/-! ## Helper lemmas about the clone trace -/

theorem finishedEvents_nil : finishedEvents [] = [] := rfl

theorem finishedEvents_cons_mkdir (d : List String) (t : List TraceItem) :
    finishedEvents (.mkdirParents d :: t) = finishedEvents t := rfl

theorem finishedEvents_cons_spawn (u : String) (d : List String) (t : List TraceItem) :
    finishedEvents (.spawn u d :: t) = finishedEvents t := rfl

theorem finishedEvents_cons_kill (t : List TraceItem) :
    finishedEvents (.kill :: t) = finishedEvents t := rfl

theorem finishedEvents_cons_log (s : String) (t : List TraceItem) :
    finishedEvents (.log s :: t) = finishedEvents t := rfl

theorem finishedEvents_cons_finished (b : Bool) (r : String) (t : List TraceItem) :
    finishedEvents (.finished b r :: t) = (b, r) :: finishedEvents t := rfl

theorem finishedEvents_cloneLoop (env : RunEnv) (lines : List String) (i : Nat) (code : Int) :
    finishedEvents (cloneLoop env lines i code) =
      if (List.range' i lines.length).any env.stopFlag then [(false, "aborted")]
      else if code = 0 then [(true, "success")]
      else [(false, "exit " ++ toString code)] := by
  induction lines generalizing i with
  | nil =>
      by_cases hc : code = 0 <;>
        simp [cloneLoop, hc, finishedEvents_cons_log, finishedEvents_cons_finished,
          finishedEvents_nil]
  | cons l rest ih =>
      rw [List.length_cons, List.range'_succ, List.any_cons]
      cases hf : env.stopFlag i with
      | true =>
          simp [cloneLoop, hf, finishedEvents_cons_kill,
            finishedEvents_cons_log, finishedEvents_cons_finished, finishedEvents_nil]
      | false =>
          rw [Bool.false_or]
          simp [cloneLoop, hf, finishedEvents_cons_log, ih]

theorem projComponents_upsert (repos : Catalog) (cat proj comp url : String) :
    projComponents (upsertComponent repos cat proj comp url) cat proj =
      dictSet (projComponents repos cat proj) comp url := by
  cases hc : dictContains repos cat with
  | true =>
      cases hp : dictContains ((dictGet repos cat).getD []) proj with
      | true =>
          simp [upsertComponent, projComponents, hc, hp, dictGet_dictSet_self]
      | false =>
          simp [upsertComponent, projComponents, hc, hp, dictGet_dictSet_self,
            dictGet_eq_none_of_not_contains hp]
  | false =>
      simp [upsertComponent, projComponents, hc, dictGet_dictSet_self,
        dictGet_eq_none_of_not_contains hc, dictContains, dictGet, dictSet]

theorem upsert_creates_levels (repos : Catalog) (cat proj comp url : String) :
    dictContains (upsertComponent repos cat proj comp url) cat = true ∧
    dictContains ((dictGet (upsertComponent repos cat proj comp url) cat).getD []) proj
      = true := by
  constructor
  · simp [upsertComponent, dictContains, dictGet_dictSet_self]
  · simp [upsertComponent, dictContains, dictGet_dictSet_self]

theorem countKey_projComponents_le_one (repos : Catalog) (cat proj comp : String)
    (h : catalogWF repos = true) : countKey (projComponents repos cat proj) comp ≤ 1 := by
  rw [projComponents]
  cases hcg : dictGet repos cat with
  | none => simp [dictGet, countKey]
  | some cm =>
      simp only [Option.getD_some]
      cases hpg : dictGet cm proj with
      | none => simp [countKey]
      | some pm =>
          simp only [Option.getD_some]
          have hmem : (cat, cm) ∈ repos := dictGet_mem hcg
          have hmem2 : (proj, pm) ∈ cm := dictGet_mem hpg
          rw [catalogWF, Bool.and_eq_true, List.all_eq_true] at h
          have h2 := h.2 (cat, cm) hmem
          rw [Bool.and_eq_true, List.all_eq_true] at h2
          have h3 := h2.2 (proj, pm) hmem2
          simpa using countKey_le_one_of_nodup pm comp h3

theorem abort_items_mem_cloneLoop (env : RunEnv) (lines : List String) :
    ∀ (j : Nat) (code : Int) (i : Nat), j ≤ i → i < j + lines.length →
      env.stopFlag i = true →
      TraceItem.kill ∈ cloneLoop env lines j code ∧
      TraceItem.log "Clone aborted by user.\n" ∈ cloneLoop env lines j code := by
  induction lines with
  | nil =>
      intro j code i hji hlt _
      simp at hlt
      omega
  | cons l rest ih =>
      intro j code i hji hlt hstop
      cases hf : env.stopFlag j with
      | true => simp [cloneLoop, hf]
      | false =>
          have hne : j ≠ i := by
            intro h
            rw [h, hstop] at hf
            cases hf
          have hmem := ih (j + 1) code i (by omega)
            (by rw [List.length_cons] at hlt; omega) hstop
          rw [cloneLoop]
          simp only [hf, if_false, Bool.false_eq_true, List.mem_cons]
          exact ⟨Or.inr hmem.1, Or.inr hmem.2⟩

/-! ## Claim theorems -/

/-- C1: every execution of the clone task's `run` delivers exactly one
`finished(success, reason)` event, and its value is determined by the
outcome: `(true, "success")` on exit status 0, `(false, "exit N")` on
nonzero exit status N, `(false, "aborted")` on user cancellation,
`(false, "git-not-found")` when the binary cannot be located, and
`(false, msg)` for any other launch or runtime failure — the outcomes are
mutually exclusive since the event list is exactly the singleton of the
specified outcome. -/
theorem c1_finished_outcome (url : String) (dest : List String) (env : RunEnv) :
    finishedEvents (runCloneTrace url dest env) = [specFinishedOutcome env] := by
  cases henv : env.launch with
  | notFound =>
      simp [runCloneTrace, henv, specFinishedOutcome, finishedEvents_cons_mkdir,
        finishedEvents_cons_log, finishedEvents_cons_finished, finishedEvents_nil,
        finishedEvents]
  | otherError msg =>
      simp [runCloneTrace, henv, specFinishedOutcome, finishedEvents_cons_mkdir,
        finishedEvents_cons_log, finishedEvents_cons_finished, finishedEvents_nil,
        finishedEvents]
  | ok lines code =>
      rw [runCloneTrace, henv, finishedEvents_cons_mkdir, finishedEvents_cons_log,
        finishedEvents_cons_spawn, finishedEvents_cloneLoop]
      simp only [specFinishedOutcome, henv, List.range_eq_range']
      split_ifs <;> rfl

/-- Closed instance of `c1_finished_outcome`: a process exiting with status
128 and no cancellation yields exactly the event `(false, "exit 128")`. -/
theorem c1_finished_outcome_witness :
    finishedEvents (runCloneTrace "https://example.org/r.git" ["home", "P", "C"]
        { launch := .ok ["Cloning into..."] 128, stopFlag := fun _ => false })
      = [specFinishedOutcome
          { launch := .ok ["Cloning into..."] 128, stopFlag := fun _ => false }] :=
  c1_finished_outcome "https://example.org/r.git" ["home", "P", "C"]
    { launch := .ok ["Cloning into..."] 128, stopFlag := fun _ => false }

/-- Environment falsifying C2 as stated: the stop flag is set from the very
start, but the process produces no output lines at all. -/
def c2StopEnv : RunEnv :=
  { launch := .ok [] 0, stopFlag := fun _ => true }

/-- C2 counterexample: with the stop flag set before any output and a
process that yields no line, `run` never observes the flag — it reports
`(true, "success")`, never kills the process and never logs the aborted
line, so a `stop()` call does not always yield the `Cancelled` outcome. -/
theorem c2_counterexample :
    c2StopEnv.stopFlag 0 = true ∧
    finishedEvents (runCloneTrace "https://example.org/r.git" ["home", "P", "C"] c2StopEnv)
      = [(true, "success")] ∧
    TraceItem.kill ∉ runCloneTrace "https://example.org/r.git" ["home", "P", "C"] c2StopEnv ∧
    TraceItem.log "Clone aborted by user.\n"
      ∉ runCloneTrace "https://example.org/r.git" ["home", "P", "C"] c2StopEnv := by
  refine ⟨rfl, rfl, ?_, ?_⟩ <;> decide

/-- C2 as amended: if the stop flag is set no later than the check for some
line the process actually produces, then `run` kills the process, emits the
final aborted log line, and delivers exactly the terminal event
`(false, "aborted")`. -/
theorem c2_stop_aborts (url : String) (dest : List String) (env : RunEnv)
    (lines : List String) (code : Int) (hlaunch : env.launch = .ok lines code)
    (i : Nat) (hi : i < lines.length) (hstop : env.stopFlag i = true) :
    TraceItem.kill ∈ runCloneTrace url dest env ∧
    TraceItem.log "Clone aborted by user.\n" ∈ runCloneTrace url dest env ∧
    finishedEvents (runCloneTrace url dest env) = [(false, "aborted")] := by
  have hmem := abort_items_mem_cloneLoop env lines 0 code i (Nat.zero_le i)
    (by omega) hstop
  have hany : (List.range' 0 lines.length).any env.stopFlag = true := by
    rw [List.any_eq_true]
    exact ⟨i, by rw [List.mem_range'_1]; omega, hstop⟩
  refine ⟨?_, ?_, ?_⟩
  · rw [runCloneTrace, hlaunch]
    simp only [List.mem_cons]
    exact Or.inr (Or.inr (Or.inr hmem.1))
  · rw [runCloneTrace, hlaunch]
    simp only [List.mem_cons]
    exact Or.inr (Or.inr (Or.inr hmem.2))
  · rw [runCloneTrace, hlaunch, finishedEvents_cons_mkdir, finishedEvents_cons_log,
      finishedEvents_cons_spawn, finishedEvents_cloneLoop, if_pos hany]

/-- Environment for the closed instance of `c2_stop_aborts`: the flag is set
before the first (and only) output line. -/
def c2WitnessEnv : RunEnv :=
  { launch := .ok ["Cloning into target..."] 0, stopFlag := fun _ => true }

/-- Closed instance of `c2_stop_aborts` at a process producing one line with
the stop flag already set. -/
theorem c2_stop_aborts_witness :
    TraceItem.kill ∈ runCloneTrace "https://example.org/r.git" ["home", "P", "C"] c2WitnessEnv ∧
    TraceItem.log "Clone aborted by user.\n"
      ∈ runCloneTrace "https://example.org/r.git" ["home", "P", "C"] c2WitnessEnv ∧
    finishedEvents (runCloneTrace "https://example.org/r.git" ["home", "P", "C"] c2WitnessEnv)
      = [(false, "aborted")] :=
  c2_stop_aborts "https://example.org/r.git" ["home", "P", "C"] c2WitnessEnv
    ["Cloning into target..."] 0 rfl 0 (by decide) rfl

/-- C3: the claim that every user-visible trigger that can start a clone is
disabled while one is running fails on the code — after a clone starts via
the Clone button, the toolbar clone action (connected to the same handler)
is still enabled and activating it starts a second clone while the first is
still running. -/
theorem c3_second_clone_possible :
    (activateTrigger (startupUI true) .cloneButton).2 = true ∧
    (activateTrigger (startupUI true) .cloneButton).1.cloneRunning = true ∧
    triggerEnabled (activateTrigger (startupUI true) .cloneButton).1 .toolbarCloneAction
      = true ∧
    (activateTrigger (activateTrigger (startupUI true) .cloneButton).1
        .toolbarCloneAction).2 = true ∧
    (activateTrigger (activateTrigger (startupUI true) .cloneButton).1
        .toolbarCloneAction).1.cloneRunning = true := by
  decide

/-- C4: when the catalog file content fails to parse, `load_or_create_config`
shows a critical Config Error notice carrying the underlying cause, returns
the built-in default catalog in memory, and leaves the on-disk file
unmodified. -/
theorem c4_malformed_fallback (emsg : String) :
    (load_or_create_config (.malformed emsg)).catalog = catalogJson sampleConfig ∧
    (load_or_create_config (.malformed emsg)).file = .malformed emsg ∧
    (load_or_create_config (.malformed emsg)).notices
      = [.critical "Config Error" ("Failed to read repos.json: " ++ emsg)] :=
  ⟨rfl, rfl, rfl⟩

/-- Closed instance of `c4_malformed_fallback` at a concrete parse-error
message. -/
theorem c4_malformed_fallback_witness :
    (load_or_create_config (.malformed "Expecting value: line 1 column 1")).catalog
      = catalogJson sampleConfig ∧
    (load_or_create_config (.malformed "Expecting value: line 1 column 1")).file
      = .malformed "Expecting value: line 1 column 1" ∧
    (load_or_create_config (.malformed "Expecting value: line 1 column 1")).notices
      = [.critical "Config Error"
          ("Failed to read repos.json: " ++ "Expecting value: line 1 column 1")] :=
  c4_malformed_fallback "Expecting value: line 1 column 1"

/-- C5: when the catalog file does not exist, `load_or_create_config` writes
the built-in default catalog to that path and returns a catalog equal to
that built-in default. -/
theorem c5_missing_creates_default :
    (load_or_create_config .missing).catalog = catalogJson sampleConfig ∧
    (load_or_create_config .missing).file = .parsed (catalogJson sampleConfig) :=
  ⟨rfl, rfl⟩

/-- C6: `upsertComponent` creates the category and project levels when
absent and assigns `catalog[cat][proj][comp] = url`; two successive upserts
of the same path with `u1` then `u2` leave exactly one component entry with
URL `u2`. -/
theorem c6_upsert_overwrite (repos : Catalog) (cat proj comp u1 u2 : String)
    (hwf : catalogWF repos = true) :
    dictContains (upsertComponent repos cat proj comp u1) cat = true ∧
    dictContains ((dictGet (upsertComponent repos cat proj comp u1) cat).getD []) proj
      = true ∧
    dictGet (projComponents (upsertComponent repos cat proj comp u1) cat proj) comp
      = some u1 ∧
    dictGet (projComponents
        (upsertComponent (upsertComponent repos cat proj comp u1) cat proj comp u2)
        cat proj) comp = some u2 ∧
    countKey (projComponents
        (upsertComponent (upsertComponent repos cat proj comp u1) cat proj comp u2)
        cat proj) comp = 1 := by
  have hcount := countKey_projComponents_le_one repos cat proj comp hwf
  have h1 : countKey (dictSet (projComponents repos cat proj) comp u1) comp = 1 :=
    countKey_dictSet_self _ comp u1 hcount
  refine ⟨(upsert_creates_levels repos cat proj comp u1).1,
    (upsert_creates_levels repos cat proj comp u1).2, ?_, ?_, ?_⟩
  · rw [projComponents_upsert, dictGet_dictSet_self]
  · rw [projComponents_upsert, projComponents_upsert, dictGet_dictSet_self]
  · rw [projComponents_upsert, projComponents_upsert]
    exact countKey_dictSet_self _ comp u2 (by omega)

/-- Closed instance of `c6_upsert_overwrite`: upserting `dev/P/C` with `u1`
then `u2` into the empty catalog leaves exactly one component `C` holding
`u2`. -/
theorem c6_upsert_overwrite_witness :
    dictContains (upsertComponent [] "dev" "P" "C" "u1") "dev" = true ∧
    dictContains ((dictGet (upsertComponent [] "dev" "P" "C" "u1") "dev").getD []) "P"
      = true ∧
    dictGet (projComponents (upsertComponent [] "dev" "P" "C" "u1") "dev" "P") "C"
      = some "u1" ∧
    dictGet (projComponents
        (upsertComponent (upsertComponent [] "dev" "P" "C" "u1") "dev" "P" "C" "u2")
        "dev" "P") "C" = some "u2" ∧
    countKey (projComponents
        (upsertComponent (upsertComponent [] "dev" "P" "C" "u1") "dev" "P" "C" "u2")
        "dev" "P") "C" = 1 :=
  c6_upsert_overwrite [] "dev" "P" "C" "u1" "u2" rfl

/-- C7: when the write-back to `repos.json` fails after an add-project
mutation, `save_new_project` surfaces the error in a critical notice,
nothing is written, and the in-memory catalog still contains the attempted
change. -/
theorem c7_write_failure_keeps_mutation (repos : Catalog) (rt pn cn ru emsg : String)
    (hpn : pn ≠ "") (hcn : cn ≠ "") (hru : ru ≠ "") :
    (save_new_project repos rt pn cn ru (some emsg)).repos
      = upsertComponent repos rt pn cn ru ∧
    dictGet (projComponents (save_new_project repos rt pn cn ru (some emsg)).repos rt pn) cn
      = some ru ∧
    (save_new_project repos rt pn cn ru (some emsg)).written = none ∧
    (save_new_project repos rt pn cn ru (some emsg)).notices
      = [.critical "Error" ("Failed to write repos.json: " ++ emsg)] := by
  rw [save_new_project, if_neg (by simp [hpn, hcn, hru])]
  exact ⟨rfl, by rw [projComponents_upsert, dictGet_dictSet_self], rfl, rfl⟩

/-- Closed instance of `c7_write_failure_keeps_mutation` at the empty
catalog and a concrete write error. -/
theorem c7_write_failure_keeps_mutation_witness :
    (save_new_project [] "dev" "P" "C" "u" (some "Permission denied")).repos
      = upsertComponent [] "dev" "P" "C" "u" ∧
    dictGet (projComponents
        (save_new_project [] "dev" "P" "C" "u" (some "Permission denied")).repos
        "dev" "P") "C" = some "u" ∧
    (save_new_project [] "dev" "P" "C" "u" (some "Permission denied")).written = none ∧
    (save_new_project [] "dev" "P" "C" "u" (some "Permission denied")).notices
      = [.critical "Error" ("Failed to write repos.json: " ++ "Permission denied")] :=
  c7_write_failure_keeps_mutation [] "dev" "P" "C" "u" "Permission denied"
    (by decide) (by decide) (by decide)

/-- C8: the destination handed to the external command is
`root/project/component`, and the destination's parent directory is created
before the command runs (the mkdir action is the first trace item, the spawn
the third). -/
theorem c8_dest_and_mkdir_order (root : List String) (proj comp url : String)
    (env : RunEnv) (lines : List String) (code : Int)
    (hlaunch : env.launch = .ok lines code) :
    (runCloneTrace url (cloneDestPath root proj comp) env).get? 0
      = some (.mkdirParents (root ++ [proj])) ∧
    (runCloneTrace url (cloneDestPath root proj comp) env).get? 2
      = some (.spawn url (root ++ [proj, comp])) := by
  constructor
  · rw [runCloneTrace]
    have hdrop : (cloneDestPath root proj comp).dropLast = root ++ [proj] := by
      rw [cloneDestPath, show root ++ [proj, comp] = (root ++ [proj]) ++ [comp] by simp]
      exact List.dropLast_concat
    rw [hdrop]
    rfl
  · rw [runCloneTrace, hlaunch]
    rfl

/-- Closed instance of `c8_dest_and_mkdir_order` at a concrete root,
project, component and a successfully launched process. -/
theorem c8_dest_and_mkdir_order_witness :
    (runCloneTrace "https://example.org/r.git" (cloneDestPath ["home", "user", "cloned"] "P" "C")
        { launch := .ok [] 0, stopFlag := fun _ => false }).get? 0
      = some (.mkdirParents (["home", "user", "cloned"] ++ ["P"])) ∧
    (runCloneTrace "https://example.org/r.git" (cloneDestPath ["home", "user", "cloned"] "P" "C")
        { launch := .ok [] 0, stopFlag := fun _ => false }).get? 2
      = some (.spawn "https://example.org/r.git" (["home", "user", "cloned"] ++ ["P", "C"])) :=
  c8_dest_and_mkdir_order ["home", "user", "cloned"] "P" "C" "https://example.org/r.git"
    { launch := .ok [] 0, stopFlag := fun _ => false } [] 0 rfl

/-- C9: for a selected category present in the catalog the displayed project
list is exactly that category's project names sorted, and for a selected
project the displayed component list is exactly its component names
sorted. -/
theorem c9_sorted_lists (repos : Catalog) (cat proj : String)
    (hcat : cat ≠ "") (hc : dictContains repos cat = true)
    (hproj : proj ≠ "")
    (hp : dictContains ((dictGet repos cat).getD []) proj = true) :
    List.Perm (on_category_change repos cat) (dictKeys ((dictGet repos cat).getD [])) ∧
    List.Sorted (fun a b => a ≤ b) (on_category_change repos cat) ∧
    List.Perm (on_project_change repos cat proj)
      (dictKeys ((dictGet ((dictGet repos cat).getD []) proj).getD [])) ∧
    List.Sorted (fun a b => a ≤ b) (on_project_change repos cat proj) := by
  rw [on_category_change, if_pos ⟨hcat, hc⟩, on_project_change,
    if_pos ⟨hcat, hproj, hc, hp⟩]
  exact ⟨List.perm_insertionSort _ _, List.sorted_insertionSort _ _,
    List.perm_insertionSort _ _, List.sorted_insertionSort _ _⟩

/-- Catalog used for the closed instance of `c9_sorted_lists`: category
`localization` holding the single project `ProjectA`. -/
def demoRepos : Catalog :=
  [("localization", [("ProjectA", [("ui", "https://example.org/ui.git")])])]

/-- Closed instance of `c9_sorted_lists` on `demoRepos`, together with the
literal evaluation showing the populated project list is exactly
`["ProjectA"]`. -/
theorem c9_sorted_lists_witness :
    (List.Perm (on_category_change demoRepos "localization")
        (dictKeys ((dictGet demoRepos "localization").getD [])) ∧
      List.Sorted (fun a b => a ≤ b) (on_category_change demoRepos "localization") ∧
      List.Perm (on_project_change demoRepos "localization" "ProjectA")
        (dictKeys ((dictGet ((dictGet demoRepos "localization").getD []) "ProjectA").getD [])) ∧
      List.Sorted (fun a b => a ≤ b)
        (on_project_change demoRepos "localization" "ProjectA")) ∧
    on_category_change demoRepos "localization" = ["ProjectA"] :=
  ⟨c9_sorted_lists demoRepos "localization" "ProjectA" (by decide) rfl (by decide) rfl,
    by decide⟩

/-- C10: `load_or_create_config` performs no shape validation on a
successfully parsed catalog file — any document that parses, including a
top-level array or string, is returned as the catalog with no notice
shown. -/
theorem c10_no_shape_validation (v : JValue) :
    (load_or_create_config (.parsed v)).catalog = v ∧
    (load_or_create_config (.parsed v)).file = .parsed v ∧
    (load_or_create_config (.parsed v)).notices = [] :=
  ⟨rfl, rfl, rfl⟩

/-- Closed instance of `c10_no_shape_validation` at a top-level array
document. -/
theorem c10_no_shape_validation_witness :
    (load_or_create_config (.parsed (.jarr [.jstr "not an object"]))).catalog
      = .jarr [.jstr "not an object"] ∧
    (load_or_create_config (.parsed (.jarr [.jstr "not an object"]))).file
      = .parsed (.jarr [.jstr "not an object"]) ∧
    (load_or_create_config (.parsed (.jarr [.jstr "not an object"]))).notices = [] :=
  c10_no_shape_validation (.jarr [.jstr "not an object"])

end GitCloneApp

